import Mathlib

/-!
Shallow embedding of the dual-contouring edge extractor
(src/dual_contouring.rs) and proofs about it.

The source file defines, in module `edge`:
  corner_bounds, neighbors, Crossing, crossing, resolve_voxels, extract.
Stateful collaborators (`&mut Voxels`) are embedded by explicit state
passing: a storage is a pair of functions `σ → bounds.T → Option _ × σ`.
The `f32` points and vectors of cgmath are embedded with rational
components; machine integers (`i32`, `i16`) are embedded as `ℤ`.
The `voxel_data::bounds` type comes from an external crate; it is
modelled from the spec (axis-aligned grid cell, position plus log2 size,
with region containment as its `contains` relation).
-/

/-- Componentwise triple, standing for cgmath's `Point3`/`Vector3`. -/
structure V3 (α : Type) where
  x : α
  y : α
  z : α
deriving DecidableEq, Repr

instance {α : Type} [Add α] : Add (V3 α) :=
  ⟨fun a b => ⟨a.x + b.x, a.y + b.y, a.z + b.z⟩⟩

/-- Division of every component by 4, as in `(v0 + ... + v3) / 4.0`. -/
def V3.div4 (a : V3 ℚ) : V3 ℚ := ⟨a.x / 4, a.y / 4, a.z / 4⟩

namespace bounds

/-- Modelled from the spec: the external `voxel_data::bounds::T` cell type,
identified by integer coordinates and a log2 size exponent
(spec section 3, "Bounds"). -/
structure T where
  x : ℤ
  y : ℤ
  z : ℤ
  lg_size : ℤ
deriving DecidableEq, Repr

instance : Inhabited T := ⟨⟨0, 0, 0, 0⟩⟩

/-- Modelled from the spec: `voxel_data::bounds::new`. -/
def new (x y z : ℤ) (lg_size : ℤ) : T := ⟨x, y, z, lg_size⟩

/-- Containment of the half-open interval `[c2*2^l2, (c2+1)*2^l2)` in
`[c1*2^l1, (c1+1)*2^l1)`, written over a common denominator so that all
arithmetic is on `ℤ`. -/
def axis_contains (c1 l1 c2 l2 : ℤ) : Bool :=
  let m := min l1 l2
  let e1 := (l1 - m).toNat
  let e2 := (l2 - m).toNat
  decide (c1 * 2 ^ e1 ≤ c2 * 2 ^ e2) && decide ((c2 + 1) * 2 ^ e2 ≤ (c1 + 1) * 2 ^ e1)

/-- Modelled from the spec: `bounds.contains` — a coarser cell contains a
finer one when its axis-aligned region does, on every axis
(spec section 3: "Coarser (larger) bounds may encompass finer queried
bounds"; equality and contains are the only required relations). -/
def T.contains (b1 b2 : T) : Bool :=
  axis_contains b1.x b1.lg_size b2.x b2.lg_size &&
  axis_contains b1.y b1.lg_size b2.y b2.lg_size &&
  axis_contains b1.z b1.lg_size b2.z b2.lg_size

end bounds

namespace material

/-- The `material::T` trait: equality (kept as `DecidableEq`) plus the
opacity query; `opacity m` embeds the source's `m.is_opaque()`. -/
class T (M : Type) where
  opacity : M → Bool

end material

namespace polygon

/-- The `polygon::T` output type: three vertices, three per-vertex
normals, one material tag. -/
structure T (M : Type) where
  vertices : V3 ℚ × V3 ℚ × V3 ℚ
  normals : V3 ℚ × V3 ℚ × V3 ℚ
  material : M
deriving DecidableEq, Repr

end polygon

namespace voxel_storage

/-- The `voxel_storage::VoxelData` record: sampled vertex, normal, and
the actual (possibly coarser) bounds the sample pertains to. -/
structure VoxelData where
  bounds : bounds.T
  vertex : V3 ℚ
  normal : V3 ℚ
deriving DecidableEq, Repr

/-- The `voxel_storage::T` trait. The Rust methods take `&mut self`;
here each call consumes and returns an explicit state of type `σ`. -/
structure T (σ M : Type) where
  get_material : σ → bounds.T → Option M × σ
  get_voxel_data : σ → bounds.T → Option VoxelData × σ

end voxel_storage

namespace edge

/-- The `edge::Direction` axis tag. -/
inductive Direction where
  | X
  | Y
  | Z
deriving DecidableEq, Repr

/-- The `edge::T` edge descriptor: low corner, log2 size, axis. -/
structure T where
  low_corner : V3 ℤ
  lg_size : ℤ
  direction : Direction
deriving DecidableEq, Repr

/-- Translation of `corner_bounds`: the two cells on either side of the
edge along its axis. -/
def corner_bounds (e : T) : List bounds.T :=
  let p0 := e.low_corner
  let d : V3 ℤ :=
    match e.direction with
    | Direction.X => ⟨1, 0, 0⟩
    | Direction.Y => ⟨0, 1, 0⟩
    | Direction.Z => ⟨0, 0, 1⟩
  let p1 := p0 + d
  [bounds.new p0.x p0.y p0.z e.lg_size,
   bounds.new p1.x p1.y p1.z e.lg_size]

/-- Translation of `neighbors`: the four cells circling the edge, walked
low corner, +v1, +v1+v2, +v2. -/
def neighbors (e : T) : List bounds.T :=
  let vs : V3 ℤ × V3 ℤ :=
    match e.direction with
    | Direction.X => (⟨0, 0, -1⟩, ⟨0, -1, 0⟩)
    | Direction.Y => (⟨-1, 0, 0⟩, ⟨0, 0, -1⟩)
    | Direction.Z => (⟨0, -1, 0⟩, ⟨-1, 0, 0⟩)
  let v1 := vs.1
  let v2 := vs.2
  let make_bounds := fun (p : V3 ℤ) => bounds.new p.x p.y p.z e.lg_size
  [make_bounds e.low_corner,
   make_bounds (e.low_corner + v1),
   make_bounds (e.low_corner + v1 + v2),
   make_bounds (e.low_corner + v2)]

/-- The `Crossing` classification result. -/
inductive Crossing (M : Type) where
  | Undefined
  | None
  | LowInside (m : M)
  | HighInside (m : M)
deriving DecidableEq, Repr

variable {σ M : Type} [DecidableEq M] [material.T M]

/-- Translation of `crossing`: query the two corner materials and
classify the edge. -/
def crossing (voxels : voxel_storage.T σ M) (s : σ) (e : T) :
    Crossing M × σ :=
  let bs := corner_bounds e
  let b0 := bs[0]!
  let b1 := bs[1]!
  match voxels.get_material s b0 with
  | (none, s1) => (Crossing.Undefined, s1)
  | (some m, s1) =>
    match voxels.get_material s1 b1 with
    | (none, s2) => (Crossing.Undefined, s2)
    | (some m', s2) =>
      if m = m' ∨ (material.T.opacity m ∧ material.T.opacity m') then
        (Crossing.None, s2)
      else if material.T.opacity m then
        (Crossing.LowInside m, s2)
      else
        (Crossing.HighInside m', s2)

/-- Translation of the labelled `'resolve_loop` in `resolve_voxels`,
with the two accumulators (`resolved_bounds`, `resolved_voxel_data`)
made explicit. -/
def resolve_loop (voxels : voxel_storage.T σ M) :
    σ → List bounds.T → List bounds.T → List (V3 ℚ × V3 ℚ) →
    Option (List (V3 ℚ × V3 ℚ)) × σ
  | s, [], _, acc => (some acc, s)
  | s, b :: rest, resolved_bounds, acc =>
    if resolved_bounds.any (fun rb => rb.contains b) then
      resolve_loop voxels s rest resolved_bounds acc
    else
      match voxels.get_voxel_data s b with
      | (none, s1) => (none, s1)
      | (some d, s1) =>
        resolve_loop voxels s1 rest (resolved_bounds ++ [d.bounds])
          (acc ++ [(d.vertex, d.normal)])

/-- Translation of `resolve_voxels`: run the loop starting from empty
accumulators. -/
def resolve_voxels (voxels : voxel_storage.T σ M) (s : σ)
    (bs : List bounds.T) : Option (List (V3 ℚ × V3 ℚ)) × σ :=
  resolve_loop voxels s bs [] []

/-- Outcome of one `extract` call: `Ok`/`Err` mirror `Result<(), ()>`,
and `Panicked` stands for the `panic!` branch. -/
inductive Status where
  | Ok
  | Err
  | Panicked
deriving DecidableEq, Repr

/-- Translation of the emission tail of `extract` (the
`vertices_and_normals.len()` if/else chain), returning the status paired
with the list of polygons passed to the `poly` callback, in call order. -/
def extract_emit (m : M) :
    Option (List (V3 ℚ × V3 ℚ)) × σ →
    (Status × List (polygon.T M)) × σ
  | (none, s) => ((Status.Err, []), s)
  | (some vns, s) =>
    match vns with
    | [(v0, n0), (v1, n1), (v2, n2)] =>
      ((Status.Ok, [⟨(v0, v1, v2), (n0, n1, n2), m⟩]), s)
    | [(v0, n0), (v1, n1), (v2, n2), (v3, n3)] =>
      let v_center := (v0 + v1 + v2 + v3).div4
      let n_center := (n0 + n1 + n2 + n3).div4
      ((Status.Ok,
        [⟨(v0, v1, v_center), (n0, n1, n_center), m⟩,
         ⟨(v1, v2, v_center), (n1, n2, n_center), m⟩,
         ⟨(v2, v3, v_center), (n2, n3, n_center), m⟩,
         ⟨(v3, v0, v_center), (n3, n0, n_center), m⟩]), s)
    | _ => ((Status.Panicked, []), s)

/-- Translation of `extract`: classify, resolve the neighbors in the
orientation-dependent order, and emit. The polygon callback is embedded
as the returned list of polygons, in the order `poly` was called. -/
def extract (voxels : voxel_storage.T σ M) (s : σ) (e : T) :
    (Status × List (polygon.T M)) × σ :=
  match crossing voxels s e with
  | (Crossing.Undefined, s1) => ((Status.Err, []), s1)
  | (Crossing.None, s1) => ((Status.Ok, []), s1)
  | (Crossing.HighInside m, s1) =>
    extract_emit m (resolve_voxels voxels s1 (neighbors e))
  | (Crossing.LowInside m, s1) =>
    extract_emit m (resolve_voxels voxels s1 (neighbors e).reverse)

/-- Number of candidates the resolve loop skips (first inner loop of
`resolve_voxels`) along its traversal; when a lookup fails the count
stops there, matching the early `return Err`. -/
def resolve_skips (voxels : voxel_storage.T σ M) :
    σ → List bounds.T → List bounds.T → ℕ
  | _, [], _ => 0
  | s, b :: rest, resolved_bounds =>
    if resolved_bounds.any (fun rb => rb.contains b) then
      1 + resolve_skips voxels s rest resolved_bounds
    else
      match voxels.get_voxel_data s b with
      | (none, _) => 0
      | (some d, s1) => resolve_skips voxels s1 rest (resolved_bounds ++ [d.bounds])

/-- Resolve loop instrumented to pair each accepted sample with the
candidate bounds it was queried for, in traversal order. -/
def resolve_traced (voxels : voxel_storage.T σ M) :
    σ → List bounds.T → List bounds.T →
    Option (List (bounds.T × V3 ℚ × V3 ℚ)) × σ
  | s, [], _ => (some [], s)
  | s, b :: rest, resolved_bounds =>
    if resolved_bounds.any (fun rb => rb.contains b) then
      resolve_traced voxels s rest resolved_bounds
    else
      match voxels.get_voxel_data s b with
      | (none, s1) => (none, s1)
      | (some d, s1) =>
        match resolve_traced voxels s1 rest (resolved_bounds ++ [d.bounds]) with
        | (none, s2) => (none, s2)
        | (some tr, s2) => (some ((b, d.vertex, d.normal) :: tr), s2)

/-- Tracks whether one of the two corner material lookups of `crossing`
answers absent (`None`), threading state exactly as `crossing` does. -/
def corner_lookup_absent (voxels : voxel_storage.T σ M) (s : σ) (e : T) :
    Bool :=
  match voxels.get_material s (corner_bounds e)[0]! with
  | (none, _) => true
  | (some _, s1) => (voxels.get_material s1 (corner_bounds e)[1]!).1.isNone

/-- Tracks whether the resolve loop reaches a non-skipped candidate
whose voxel-data lookup answers absent, threading state exactly as the
loop does. -/
def resolve_lookup_absent (voxels : voxel_storage.T σ M) :
    σ → List bounds.T → List bounds.T → Bool
  | _, [], _ => false
  | s, b :: rest, resolved_bounds =>
    if resolved_bounds.any (fun rb => rb.contains b) then
      resolve_lookup_absent voxels s rest resolved_bounds
    else
      match voxels.get_voxel_data s b with
      | (none, _) => true
      | (some d, s1) => resolve_lookup_absent voxels s1 rest (resolved_bounds ++ [d.bounds])

end edge

/-! Concrete fixtures used to exercise the definitions at explicit
inputs: a three-valued material type (only `Air` is non-opaque) and
stateless storages given by plain answer functions. -/

/-- Concrete material type for test scenarios. -/
inductive Mat where
  | Air
  | Stone
  | Dirt
deriving DecidableEq, Repr

instance : material.T Mat :=
  ⟨fun m => match m with | .Air => false | _ => true⟩

/-- Zero point, used as a placeholder sample. -/
def q0 : V3 ℚ := ⟨0, 0, 0⟩

/-- Storage whose two lookups answer by pure functions and leave the
(unit) state unchanged. -/
def mkStorage (gm : bounds.T → Option Mat)
    (gvd : bounds.T → Option voxel_storage.VoxelData) :
    voxel_storage.T Unit Mat :=
  ⟨fun s b => (gm b, s), fun s b => (gvd b, s)⟩

/-- Edge along X at low corner (0,1,1), size 0; its four neighbor cells
all lie inside the coarser cell `coarseC2`. -/
def eC2 : edge.T := ⟨⟨0, 1, 1⟩, 0, edge.Direction.X⟩

/-- Coarser cell of log-size 1 at the origin, containing all four
neighbor cells of `eC2`. -/
def coarseC2 : bounds.T := ⟨0, 0, 0, 1⟩

/-- Storage meeting the spec's containment contract whose voxel-data
answer for any cell inside `coarseC2` is the whole of `coarseC2`. -/
def stC2 : voxel_storage.T Unit Mat :=
  mkStorage
    (fun b => if b = bounds.new 0 1 1 0 then some Mat.Stone else some Mat.Air)
    (fun b => some ⟨if coarseC2.contains b then coarseC2 else b, q0, q0⟩)

/-- Edge along X at the origin, size 0. -/
def e4 : edge.T := ⟨⟨0, 0, 0⟩, 0, edge.Direction.X⟩

/-- Storage answering every voxel-data query with the queried cell
itself (4 distinct samples for any 4 distinct neighbors). -/
def st4 : voxel_storage.T Unit Mat :=
  mkStorage
    (fun b => if b = bounds.new 0 0 0 0 then some Mat.Stone else some Mat.Air)
    (fun b => some ⟨b, ⟨(b.x : ℚ), (b.y : ℚ), (b.z : ℚ)⟩, ⟨0, 0, 1⟩⟩)

/-- Edge along X at low corner (0,1,1), size 0, with a high corner
material making the crossing `HighInside`. -/
def e8 : edge.T := ⟨⟨0, 1, 1⟩, 0, edge.Direction.X⟩

/-- Coarser cell that contains the third and fourth neighbor of `e8`. -/
def cc8 : bounds.T := ⟨0, 0, 0, 1⟩

/-- Storage that answers the third neighbor query of `e8` with the
coarser cell `cc8`, making exactly one later candidate get skipped. -/
def st8 : voxel_storage.T Unit Mat :=
  mkStorage
    (fun b => if b = bounds.new 1 1 1 0 then some Mat.Stone else some Mat.Air)
    (fun b => some ⟨if b = bounds.new 0 0 0 0 then cc8 else b,
                    ⟨(b.x : ℚ), (b.y : ℚ), (b.z : ℚ)⟩, ⟨0, 0, 1⟩⟩)

/-- Storage with no data at all: every lookup answers absent. -/
def stAbsent : voxel_storage.T Unit Mat :=
  mkStorage (fun _ => none) (fun _ => none)

/-- Stateful storage: a call counter is incremented by every lookup,
while the answers themselves depend only on the queried bounds. -/
def stCounter : voxel_storage.T ℕ Mat :=
  ⟨fun s b => ((st4.get_material () b).1, s + 1),
   fun s b => ((st4.get_voxel_data () b).1, s + 1)⟩

/-- Storage whose corner materials are equal (`Dirt` everywhere). -/
def stSame : voxel_storage.T Unit Mat :=
  mkStorage (fun _ => some Mat.Dirt) (fun _ => none)

/-- Storage whose corner materials are distinct but both opaque. -/
def stOpq : voxel_storage.T Unit Mat :=
  mkStorage
    (fun b => if b = bounds.new 0 0 0 0 then some Mat.Stone else some Mat.Dirt)
    (fun _ => none)

/-- Storage with the same material lookup as `stOpq` but a different
voxel-data lookup. -/
def stOpq2 : voxel_storage.T Unit Mat :=
  mkStorage
    (fun b => if b = bounds.new 0 0 0 0 then some Mat.Stone else some Mat.Dirt)
    (fun b => some ⟨b, q0, q0⟩)

/-! Helper lemmas about the resolve loop, the classifier and the
emitter. -/

namespace edge

theorem resolve_loop_cons {σ M : Type} (voxels : voxel_storage.T σ M) (s : σ)
    (b : bounds.T) (rest rb : List bounds.T) (acc : List (V3 ℚ × V3 ℚ)) :
    resolve_loop voxels s (b :: rest) rb acc =
      if rb.any (fun r => r.contains b) then
        resolve_loop voxels s rest rb acc
      else
        match voxels.get_voxel_data s b with
        | (none, s1) => (none, s1)
        | (some d, s1) =>
          resolve_loop voxels s1 rest (rb ++ [d.bounds])
            (acc ++ [(d.vertex, d.normal)]) := rfl

theorem resolve_traced_cons {σ M : Type} (voxels : voxel_storage.T σ M) (s : σ)
    (b : bounds.T) (rest rb : List bounds.T) :
    resolve_traced voxels s (b :: rest) rb =
      if rb.any (fun r => r.contains b) then
        resolve_traced voxels s rest rb
      else
        match voxels.get_voxel_data s b with
        | (none, s1) => (none, s1)
        | (some d, s1) =>
          match resolve_traced voxels s1 rest (rb ++ [d.bounds]) with
          | (none, s2) => (none, s2)
          | (some tr, s2) => (some ((b, d.vertex, d.normal) :: tr), s2) := rfl

theorem resolve_skips_cons {σ M : Type} (voxels : voxel_storage.T σ M) (s : σ)
    (b : bounds.T) (rest rb : List bounds.T) :
    resolve_skips voxels s (b :: rest) rb =
      if rb.any (fun r => r.contains b) then
        1 + resolve_skips voxels s rest rb
      else
        match voxels.get_voxel_data s b with
        | (none, _) => 0
        | (some d, s1) => resolve_skips voxels s1 rest (rb ++ [d.bounds]) := rfl

theorem resolve_lookup_absent_cons {σ M : Type} (voxels : voxel_storage.T σ M)
    (s : σ) (b : bounds.T) (rest rb : List bounds.T) :
    resolve_lookup_absent voxels s (b :: rest) rb =
      if rb.any (fun r => r.contains b) then
        resolve_lookup_absent voxels s rest rb
      else
        match voxels.get_voxel_data s b with
        | (none, _) => true
        | (some d, s1) =>
          resolve_lookup_absent voxels s1 rest (rb ++ [d.bounds]) := rfl

theorem resolve_loop_acc_prefix {σ M : Type} (voxels : voxel_storage.T σ M)
    (bs : List bounds.T) :
    ∀ (s : σ) (rb : List bounds.T) (acc out : List (V3 ℚ × V3 ℚ)) (s' : σ),
      resolve_loop voxels s bs rb acc = (some out, s') →
      ∃ t, out = acc ++ t := by
  induction bs with
  | nil =>
    intro s rb acc out s' h
    simp only [resolve_loop, Prod.mk.injEq, Option.some.injEq] at h
    exact ⟨[], by simp [h.1]⟩
  | cons b rest ih =>
    intro s rb acc out s' h
    rw [resolve_loop_cons] at h
    by_cases hskip : rb.any (fun r => r.contains b)
    · rw [if_pos hskip] at h
      exact ih s rb acc out s' h
    · rw [if_neg hskip] at h
      rcases hgvd : voxels.get_voxel_data s b with ⟨o, s1⟩
      rw [hgvd] at h
      cases o with
      | none => simp at h
      | some d =>
        dsimp only at h
        rcases ih s1 (rb ++ [d.bounds]) (acc ++ [(d.vertex, d.normal)]) out s' h
          with ⟨t, ht⟩
        exact ⟨(d.vertex, d.normal) :: t, by simpa using ht⟩

theorem resolve_loop_eq_traced {σ M : Type} (voxels : voxel_storage.T σ M)
    (bs : List bounds.T) :
    ∀ (s : σ) (rb : List bounds.T) (acc : List (V3 ℚ × V3 ℚ)),
      resolve_loop voxels s bs rb acc =
        (match resolve_traced voxels s bs rb with
         | (none, s') => (none, s')
         | (some tr, s') => (some (acc ++ tr.map (fun p => p.2)), s')) := by
  induction bs with
  | nil =>
    intro s rb acc
    simp [resolve_loop, resolve_traced]
  | cons b rest ih =>
    intro s rb acc
    rw [resolve_loop_cons, resolve_traced_cons]
    by_cases hskip : rb.any (fun r => r.contains b)
    · rw [if_pos hskip, if_pos hskip]
      exact ih s rb acc
    · rw [if_neg hskip, if_neg hskip]
      rcases hgvd : voxels.get_voxel_data s b with ⟨o, s1⟩
      cases o with
      | none => simp
      | some d =>
        dsimp only
        rw [ih s1 (rb ++ [d.bounds]) (acc ++ [(d.vertex, d.normal)])]
        rcases htr : resolve_traced voxels s1 rest (rb ++ [d.bounds]) with ⟨otr, s2⟩
        cases otr with
        | none => simp
        | some tr => simp

theorem resolve_traced_length {σ M : Type} (voxels : voxel_storage.T σ M)
    (bs : List bounds.T) :
    ∀ (s : σ) (rb : List bounds.T) (tr : List (bounds.T × V3 ℚ × V3 ℚ)) (s' : σ),
      resolve_traced voxels s bs rb = (some tr, s') →
      tr.length + resolve_skips voxels s bs rb = bs.length := by
  induction bs with
  | nil =>
    intro s rb tr s' h
    simp only [resolve_traced, Prod.mk.injEq, Option.some.injEq] at h
    simp [resolve_skips, ← h.1]
  | cons b rest ih =>
    intro s rb tr s' h
    rw [resolve_traced_cons] at h
    rw [resolve_skips_cons]
    by_cases hskip : rb.any (fun r => r.contains b)
    · rw [if_pos hskip] at h
      rw [if_pos hskip]
      have h1 := ih s rb tr s' h
      simp only [List.length_cons]
      omega
    · rw [if_neg hskip] at h
      rw [if_neg hskip]
      rcases hgvd : voxels.get_voxel_data s b with ⟨o, s1⟩
      rw [hgvd] at h
      cases o with
      | none => simp at h
      | some d =>
        dsimp only at h ⊢
        rcases htr : resolve_traced voxels s1 rest (rb ++ [d.bounds]) with ⟨otr, s2⟩
        rw [htr] at h
        cases otr with
        | none => simp at h
        | some tr' =>
          dsimp only at h
          have h1 := ih s1 (rb ++ [d.bounds]) tr' s2 htr
          have h2 : tr = (b, d.vertex, d.normal) :: tr' := by
            simp only [Prod.mk.injEq, Option.some.injEq] at h
            exact h.1.symm
          subst h2
          simp only [List.length_cons]
          omega

theorem resolve_traced_sublist {σ M : Type} (voxels : voxel_storage.T σ M)
    (bs : List bounds.T) :
    ∀ (s : σ) (rb : List bounds.T) (tr : List (bounds.T × V3 ℚ × V3 ℚ)) (s' : σ),
      resolve_traced voxels s bs rb = (some tr, s') →
      (tr.map (fun p => p.1)).Sublist bs := by
  induction bs with
  | nil =>
    intro s rb tr s' h
    simp only [resolve_traced, Prod.mk.injEq, Option.some.injEq] at h
    simp [← h.1]
  | cons b rest ih =>
    intro s rb tr s' h
    rw [resolve_traced_cons] at h
    by_cases hskip : rb.any (fun r => r.contains b)
    · rw [if_pos hskip] at h
      exact (ih s rb tr s' h).cons b
    · rw [if_neg hskip] at h
      rcases hgvd : voxels.get_voxel_data s b with ⟨o, s1⟩
      rw [hgvd] at h
      cases o with
      | none => simp at h
      | some d =>
        dsimp only at h
        rcases htr : resolve_traced voxels s1 rest (rb ++ [d.bounds]) with ⟨otr, s2⟩
        rw [htr] at h
        cases otr with
        | none => simp at h
        | some tr' =>
          have h2 : tr = (b, d.vertex, d.normal) :: tr' := by
            simp only [Prod.mk.injEq, Option.some.injEq] at h
            exact h.1.symm
          subst h2
          simpa using (ih s1 (rb ++ [d.bounds]) tr' s2 htr).cons₂ b

theorem resolve_loop_none_iff {σ M : Type} (voxels : voxel_storage.T σ M)
    (bs : List bounds.T) :
    ∀ (s : σ) (rb : List bounds.T) (acc : List (V3 ℚ × V3 ℚ)),
      ((resolve_loop voxels s bs rb acc).1 = none ↔
        resolve_lookup_absent voxels s bs rb = true) := by
  induction bs with
  | nil =>
    intro s rb acc
    simp [resolve_loop, resolve_lookup_absent]
  | cons b rest ih =>
    intro s rb acc
    rw [resolve_loop_cons, resolve_lookup_absent_cons]
    by_cases hskip : rb.any (fun r => r.contains b)
    · rw [if_pos hskip, if_pos hskip]
      exact ih s rb acc
    · rw [if_neg hskip, if_neg hskip]
      rcases hgvd : voxels.get_voxel_data s b with ⟨o, s1⟩
      cases o with
      | none => simp
      | some d =>
        dsimp only
        exact ih s1 (rb ++ [d.bounds]) (acc ++ [(d.vertex, d.normal)])

end edge

theorem bounds_contains_refl (b : bounds.T) : b.contains b = true := by
  simp [bounds.T.contains, bounds.axis_contains]

namespace edge

theorem crossing_def {σ M : Type} [DecidableEq M] [material.T M]
    (voxels : voxel_storage.T σ M) (s : σ) (e : T) :
    crossing voxels s e =
      match voxels.get_material s (corner_bounds e)[0]! with
      | (none, s1) => (Crossing.Undefined, s1)
      | (some m, s1) =>
        match voxels.get_material s1 (corner_bounds e)[1]! with
        | (none, s2) => (Crossing.Undefined, s2)
        | (some m', s2) =>
          if m = m' ∨ (material.T.opacity m ∧ material.T.opacity m') then
            (Crossing.None, s2)
          else if material.T.opacity m then
            (Crossing.LowInside m, s2)
          else
            (Crossing.HighInside m', s2) := rfl

theorem crossing_undefined_iff {σ M : Type} [DecidableEq M] [material.T M]
    (voxels : voxel_storage.T σ M) (s : σ) (e : T) :
    ((crossing voxels s e).1 = Crossing.Undefined ↔
      corner_lookup_absent voxels s e = true) := by
  rw [crossing_def]
  unfold corner_lookup_absent
  rcases h0 : voxels.get_material s (corner_bounds e)[0]! with ⟨o0, s1⟩
  cases o0 with
  | none => simp
  | some m =>
    dsimp only
    rcases h1 : voxels.get_material s1 (corner_bounds e)[1]! with ⟨o1, s2⟩
    cases o1 with
    | none => simp
    | some m' =>
      dsimp only
      by_cases hc : m = m' ∨ (material.T.opacity m ∧ material.T.opacity m')
      · rw [if_pos hc]
        simp
      · rw [if_neg hc]
        by_cases ho : material.T.opacity m
        · rw [if_pos ho]
          simp
        · rw [if_neg ho]
          simp

theorem extract_emit_none {σ M : Type} [DecidableEq M] [material.T M]
    (m : M) (s : σ) :
    extract_emit (σ := σ) m (none, s) = ((Status.Err, []), s) := rfl

theorem extract_emit_some_ne_err {σ M : Type} [DecidableEq M] [material.T M]
    (m : M) (vns : List (V3 ℚ × V3 ℚ)) (s : σ) :
    (extract_emit m (some vns, s)).1.1 ≠ Status.Err := by
  rcases vns with _ | ⟨⟨v0, n0⟩, _ | ⟨⟨v1, n1⟩, _ | ⟨⟨v2, n2⟩, _ | ⟨⟨v3, n3⟩, rest⟩⟩⟩⟩
  · simp [extract_emit]
  · simp [extract_emit]
  · simp [extract_emit]
  · simp [extract_emit]
  · rcases rest with _ | ⟨p4, rest'⟩
    · simp [extract_emit]
    · simp [extract_emit]

theorem extract_emit_len {σ M : Type} [DecidableEq M] [material.T M]
    (m : M) (r : Option (List (V3 ℚ × V3 ℚ)) × σ) :
    ((extract_emit m r).1.2).length = 0 ∨
    ((extract_emit m r).1.2).length = 1 ∨
    ((extract_emit m r).1.2).length = 4 := by
  rcases r with ⟨o, s⟩
  cases o with
  | none => simp [extract_emit]
  | some vns =>
    rcases vns with _ | ⟨⟨v0, n0⟩, _ | ⟨⟨v1, n1⟩, _ | ⟨⟨v2, n2⟩, _ | ⟨⟨v3, n3⟩, rest⟩⟩⟩⟩
    · simp [extract_emit]
    · simp [extract_emit]
    · simp [extract_emit]
    · simp [extract_emit]
    · rcases rest with _ | ⟨p4, rest'⟩
      · simp [extract_emit]
      · simp [extract_emit]

theorem extract_emit_fst_congr {σ M : Type} [DecidableEq M] [material.T M]
    (m : M) (o : Option (List (V3 ℚ × V3 ℚ))) (s t : σ) :
    (extract_emit m (o, s)).1 = (extract_emit m (o, t)).1 := by
  cases o with
  | none => rfl
  | some vns =>
    rcases vns with _ | ⟨⟨v0, n0⟩, _ | ⟨⟨v1, n1⟩, _ | ⟨⟨v2, n2⟩, _ | ⟨⟨v3, n3⟩, rest⟩⟩⟩⟩
    · rfl
    · rfl
    · rfl
    · rfl
    · rcases rest with _ | ⟨p4, rest'⟩ <;> rfl

theorem crossing_fst_congr {σ M : Type} [DecidableEq M] [material.T M]
    (voxels : voxel_storage.T σ M)
    (hm : ∀ s t b, (voxels.get_material s b).1 = (voxels.get_material t b).1)
    (e : T) (s t : σ) :
    (crossing voxels s e).1 = (crossing voxels t e).1 := by
  rw [crossing_def voxels s e, crossing_def voxels t e]
  have e0 := hm s t (corner_bounds e)[0]!
  rcases h0 : voxels.get_material s (corner_bounds e)[0]! with ⟨o0, s1⟩
  rcases h0' : voxels.get_material t (corner_bounds e)[0]! with ⟨o0', t1⟩
  rw [h0, h0'] at e0
  dsimp only at e0
  subst e0
  cases o0 with
  | none => rfl
  | some m =>
    dsimp only
    have e1 := hm s1 t1 (corner_bounds e)[1]!
    rcases h1 : voxels.get_material s1 (corner_bounds e)[1]! with ⟨o1, s2⟩
    rcases h1' : voxels.get_material t1 (corner_bounds e)[1]! with ⟨o1', t2⟩
    rw [h1, h1'] at e1
    dsimp only at e1
    subst e1
    cases o1 with
    | none => rfl
    | some m' =>
      dsimp only
      by_cases hc : m = m' ∨ (material.T.opacity m ∧ material.T.opacity m')
      · rw [if_pos hc, if_pos hc]
      · rw [if_neg hc, if_neg hc]
        by_cases ho : material.T.opacity m
        · rw [if_pos ho, if_pos ho]
        · rw [if_neg ho, if_neg ho]

theorem resolve_loop_fst_congr {σ M : Type} (voxels : voxel_storage.T σ M)
    (hd : ∀ s t b, (voxels.get_voxel_data s b).1 = (voxels.get_voxel_data t b).1)
    (bs : List bounds.T) :
    ∀ (s t : σ) (rb : List bounds.T) (acc : List (V3 ℚ × V3 ℚ)),
      (resolve_loop voxels s bs rb acc).1 = (resolve_loop voxels t bs rb acc).1 := by
  induction bs with
  | nil => intro s t rb acc; rfl
  | cons b rest ih =>
    intro s t rb acc
    rw [resolve_loop_cons, resolve_loop_cons]
    by_cases hskip : rb.any (fun r => r.contains b)
    · rw [if_pos hskip, if_pos hskip]
      exact ih s t rb acc
    · rw [if_neg hskip, if_neg hskip]
      have e0 := hd s t b
      rcases h0 : voxels.get_voxel_data s b with ⟨o, s1⟩
      rcases h0' : voxels.get_voxel_data t b with ⟨o', t1⟩
      rw [h0, h0'] at e0
      dsimp only at e0
      subst e0
      cases o with
      | none => rfl
      | some d =>
        dsimp only
        exact ih s1 t1 (rb ++ [d.bounds]) (acc ++ [(d.vertex, d.normal)])

theorem extract_fst_congr {σ M : Type} [DecidableEq M] [material.T M]
    (voxels : voxel_storage.T σ M)
    (hm : ∀ s t b, (voxels.get_material s b).1 = (voxels.get_material t b).1)
    (hd : ∀ s t b, (voxels.get_voxel_data s b).1 = (voxels.get_voxel_data t b).1)
    (e : T) (s t : σ) :
    (extract voxels s e).1 = (extract voxels t e).1 := by
  unfold extract
  have hc := crossing_fst_congr voxels hm e s t
  rcases h0 : crossing voxels s e with ⟨c, s1⟩
  rcases h0' : crossing voxels t e with ⟨c', t1⟩
  rw [h0, h0'] at hc
  dsimp only at hc
  subst hc
  cases c with
  | Undefined => rfl
  | None => rfl
  | HighInside m =>
    dsimp only
    have hr := resolve_loop_fst_congr voxels hd (neighbors e) s1 t1 [] []
    unfold resolve_voxels
    rcases h1 : resolve_loop voxels s1 (neighbors e) [] [] with ⟨o, sF⟩
    rcases h1' : resolve_loop voxels t1 (neighbors e) [] [] with ⟨o', tF⟩
    rw [h1, h1'] at hr
    dsimp only at hr
    subst hr
    exact extract_emit_fst_congr m o sF tF
  | LowInside m =>
    dsimp only
    have hr := resolve_loop_fst_congr voxels hd (neighbors e).reverse s1 t1 [] []
    unfold resolve_voxels
    rcases h1 : resolve_loop voxels s1 (neighbors e).reverse [] [] with ⟨o, sF⟩
    rcases h1' : resolve_loop voxels t1 (neighbors e).reverse [] [] with ⟨o', tF⟩
    rw [h1, h1'] at hr
    dsimp only at hr
    subst hr
    exact extract_emit_fst_congr m o sF tF

end edge

namespace edge

/-- C3: when both corner material lookups succeed with materials that
are neither equal nor both opaque, `crossing` returns `LowInside` with
the low-side material if that material is opaque, and otherwise
`HighInside` with the high-side material (including the tie-break case
where neither side is opaque). -/
theorem crossing_side_selection {σ M : Type} [DecidableEq M] [material.T M]
    (voxels : voxel_storage.T σ M) (s : σ) (e : T) (m m' : M) (s1 s2 : σ)
    (h0 : voxels.get_material s (corner_bounds e)[0]! = (some m, s1))
    (h1 : voxels.get_material s1 (corner_bounds e)[1]! = (some m', s2))
    (hne : m ≠ m')
    (hnb : ¬(material.T.opacity m ∧ material.T.opacity m')) :
    crossing voxels s e =
      (if material.T.opacity m then Crossing.LowInside m
       else Crossing.HighInside m', s2) := by
  rw [crossing_def, h0]
  dsimp only
  rw [h1]
  dsimp only
  rw [if_neg (by tauto)]
  by_cases ho : material.T.opacity m
  · rw [if_pos ho, if_pos ho]
  · rw [if_neg ho, if_neg ho]

/-- Witness for C3 at a concrete edge and storage: the low corner of
`e8` is `Air` (not opaque), the high corner `Stone`, so the crossing is
`HighInside Stone`. -/
theorem crossing_side_selection_witness :
    crossing st8 () e8 =
      (if material.T.opacity Mat.Air then Crossing.LowInside Mat.Air
       else Crossing.HighInside Mat.Stone, ()) :=
  crossing_side_selection st8 () e8 Mat.Air Mat.Stone () ()
    (by decide) (by decide) (by decide) (by decide)

/-- C5: when both corner materials are equal, or both are opaque,
`extract` succeeds with zero polygons, its final state is the one
reached right after the two material lookups, and the result is the
same for any storage with the same material lookup — in particular no
voxel-data lookup is performed. -/
theorem extract_no_crossing {σ M : Type} [DecidableEq M] [material.T M]
    (voxels voxels' : voxel_storage.T σ M) (s : σ) (e : T) (m m' : M)
    (s1 s2 : σ)
    (hgm : voxels'.get_material = voxels.get_material)
    (h0 : voxels.get_material s (corner_bounds e)[0]! = (some m, s1))
    (h1 : voxels.get_material s1 (corner_bounds e)[1]! = (some m', s2))
    (hnc : m = m' ∨ (material.T.opacity m ∧ material.T.opacity m')) :
    extract voxels s e = ((Status.Ok, []), s2) ∧
    extract voxels' s e = ((Status.Ok, []), s2) := by
  have hcr : crossing voxels s e = (Crossing.None, s2) := by
    rw [crossing_def, h0]
    dsimp only
    rw [h1]
    dsimp only
    rw [if_pos hnc]
  have hcr' : crossing voxels' s e = (Crossing.None, s2) := by
    rw [crossing_def, hgm, h0]
    dsimp only
    rw [h1]
    dsimp only
    rw [if_pos hnc]
  constructor
  · unfold extract
    rw [hcr]
  · unfold extract
    rw [hcr']

/-- Witness for C5: two distinct but both-opaque corner materials
(`Stone` and `Dirt`), under two storages sharing the material lookup
but with different voxel-data lookups. -/
theorem extract_no_crossing_witness :
    extract stOpq () e4 = ((Status.Ok, []), ()) ∧
    extract stOpq2 () e4 = ((Status.Ok, []), ()) :=
  extract_no_crossing stOpq stOpq2 () e4 Mat.Stone Mat.Dirt () ()
    rfl (by decide) (by decide) (by decide)

/-- Lengths of the polygon list of any `extract` call: 0, 1 or 4. -/
theorem extract_len {σ M : Type} [DecidableEq M] [material.T M]
    (voxels : voxel_storage.T σ M) (s : σ) (e : T) :
    ((extract voxels s e).1.2).length = 0 ∨
    ((extract voxels s e).1.2).length = 1 ∨
    ((extract voxels s e).1.2).length = 4 := by
  unfold extract
  rcases hc : crossing voxels s e with ⟨c, s1⟩
  cases c with
  | Undefined => simp
  | None => simp
  | HighInside m =>
    exact extract_emit_len m (resolve_voxels voxels s1 (neighbors e))
  | LowInside m =>
    exact extract_emit_len m (resolve_voxels voxels s1 (neighbors e).reverse)

/-- C9: a non-aborting `extract` call passes 0, 1 or 4 polygons to the
callback, never exactly 2 or exactly 3. -/
theorem extract_emission_count {σ M : Type} [DecidableEq M] [material.T M]
    (voxels : voxel_storage.T σ M) (s : σ) (e : T) (st : Status)
    (ps : List (polygon.T M))
    (h : (extract voxels s e).1 = (st, ps)) (_hna : st ≠ Status.Panicked) :
    (ps.length = 0 ∨ ps.length = 1 ∨ ps.length = 4) ∧
    ps.length ≠ 2 ∧ ps.length ≠ 3 := by
  have hp : ps = (extract voxels s e).1.2 := by rw [h]
  have hl := extract_len voxels s e
  rw [← hp] at hl
  refine ⟨hl, ?_, ?_⟩ <;> rcases hl with h0 | h1 | h4 <;> omega

/-- Witness for C9 at a no-crossing edge: zero polygons. -/
theorem extract_emission_count_witness :
    (([] : List (polygon.T Mat)).length = 0 ∨
     ([] : List (polygon.T Mat)).length = 1 ∨
     ([] : List (polygon.T Mat)).length = 4) ∧
    ([] : List (polygon.T Mat)).length ≠ 2 ∧
    ([] : List (polygon.T Mat)).length ≠ 3 :=
  extract_emission_count stSame () e4 Status.Ok [] (by decide) (by decide)

/-- C10: when both storage lookups answer independently of the storage
state (pure functions of the queried bounds), running `extract` twice
over the same edge — the second call starting from the state the first
call left behind — produces the same status and the same polygon
sequence. -/
theorem extract_idempotent {σ M : Type} [DecidableEq M] [material.T M]
    (voxels : voxel_storage.T σ M) (e : T) (s : σ)
    (hm : ∀ s t b, (voxels.get_material s b).1 = (voxels.get_material t b).1)
    (hd : ∀ s t b, (voxels.get_voxel_data s b).1 = (voxels.get_voxel_data t b).1) :
    (extract voxels s e).1 = (extract voxels ((extract voxels s e).2) e).1 :=
  extract_fst_congr voxels hm hd e s ((extract voxels s e).2)

/-- Witness for C10: a storage that counts its calls in its state but
answers purely; two successive calls agree. -/
theorem extract_idempotent_witness :
    (extract stCounter 0 e4).1 =
      (extract stCounter ((extract stCounter 0 e4).2) e4).1 :=
  extract_idempotent stCounter e4 0 (fun _ _ _ => rfl) (fun _ _ _ => rfl)

end edge

namespace edge

/-- C1 (amended): when the crossing classification succeeds with a
crossing and neighbor resolution succeeds, `extract` emits exactly one
triangle if three samples were resolved, and exactly four triangles if
four samples were resolved. -/
theorem extract_count_by_samples {σ M : Type} [DecidableEq M] [material.T M]
    (voxels : voxel_storage.T σ M) (s : σ) (e : T) (m : M) (s1 sF : σ)
    (vns : List (V3 ℚ × V3 ℚ))
    (hc : (crossing voxels s e = (Crossing.HighInside m, s1) ∧
           resolve_voxels voxels s1 (neighbors e) = (some vns, sF)) ∨
          (crossing voxels s e = (Crossing.LowInside m, s1) ∧
           resolve_voxels voxels s1 (neighbors e).reverse = (some vns, sF))) :
    (vns.length = 3 → ((extract voxels s e).1.2).length = 1) ∧
    (vns.length = 4 → ((extract voxels s e).1.2).length = 4) := by
  have hext : extract voxels s e = extract_emit m (some vns, sF) := by
    rcases hc with ⟨hcr, hres⟩ | ⟨hcr, hres⟩
    · unfold extract
      rw [hcr]
      dsimp only
      rw [hres]
    · unfold extract
      rw [hcr]
      dsimp only
      rw [hres]
  rw [hext]
  rcases vns with _ | ⟨⟨v0, n0⟩, _ | ⟨⟨v1, n1⟩, _ | ⟨⟨v2, n2⟩, _ | ⟨⟨v3, n3⟩, rest⟩⟩⟩⟩
  · constructor <;> intro hlen <;> simp at hlen
  · constructor <;> intro hlen <;> simp at hlen
  · constructor <;> intro hlen <;> simp at hlen
  · constructor <;> intro hlen
    · simp [extract_emit]
    · simp at hlen
  · rcases rest with _ | ⟨p4, rest'⟩
    · constructor <;> intro hlen
      · simp at hlen
      · simp [extract_emit]
    · constructor <;> intro hlen <;> simp at hlen

/-- Witness for the amended C1 at a concrete edge with four distinct
resolved samples: four triangles are emitted. -/
theorem extract_count_by_samples_witness :
    ((4 : ℕ) = 3 → ((extract st4 () e4).1.2).length = 1) ∧
    ((4 : ℕ) = 4 → ((extract st4 () e4).1.2).length = 4) :=
  extract_count_by_samples st4 () e4 Mat.Stone () ()
    [(⟨0, -1, 0⟩, ⟨0, 0, 1⟩), (⟨0, -1, -1⟩, ⟨0, 0, 1⟩),
     (⟨0, 0, -1⟩, ⟨0, 0, 1⟩), (⟨0, 0, 0⟩, ⟨0, 0, 1⟩)]
    (Or.inr ⟨by decide, by decide⟩)

/-- Counterexample to C1 as stated: at edge `e4` with storage `st4`,
the crossing succeeds, resolution succeeds with four distinct samples,
and `extract` emits four triangles, not two. -/
theorem extract_count_by_samples_counterexample :
    crossing st4 () e4 = (Crossing.LowInside Mat.Stone, ()) ∧
    (resolve_voxels st4 () (neighbors e4).reverse).1 =
      some [(⟨0, -1, 0⟩, ⟨0, 0, 1⟩), (⟨0, -1, -1⟩, ⟨0, 0, 1⟩),
            (⟨0, 0, -1⟩, ⟨0, 0, 1⟩), (⟨0, 0, 0⟩, ⟨0, 0, 1⟩)] ∧
    ((extract st4 () e4).1.2).length = 4 ∧
    ¬((extract st4 () e4).1.2).length = 2 := by
  refine ⟨by decide, by decide, by decide, by decide⟩

end edge

namespace edge

/-- C6: with four resolved samples, `extract` emits four triangles in
quad order, each sharing a center vertex and normal that are the
componentwise arithmetic means of the four sample vertices and normals,
all tagged with the crossing material. -/
theorem extract_four_samples {σ M : Type} [DecidableEq M] [material.T M]
    (voxels : voxel_storage.T σ M) (s : σ) (e : T) (m : M) (s1 sF : σ)
    (v0 n0 v1 n1 v2 n2 v3 n3 : V3 ℚ)
    (hc : (crossing voxels s e = (Crossing.HighInside m, s1) ∧
           resolve_voxels voxels s1 (neighbors e) =
             (some [(v0, n0), (v1, n1), (v2, n2), (v3, n3)], sF)) ∨
          (crossing voxels s e = (Crossing.LowInside m, s1) ∧
           resolve_voxels voxels s1 (neighbors e).reverse =
             (some [(v0, n0), (v1, n1), (v2, n2), (v3, n3)], sF))) :
    extract voxels s e =
      ((Status.Ok,
        [⟨(v0, v1, ⟨(v0.x + v1.x + v2.x + v3.x) / 4, (v0.y + v1.y + v2.y + v3.y) / 4,
                    (v0.z + v1.z + v2.z + v3.z) / 4⟩),
          (n0, n1, ⟨(n0.x + n1.x + n2.x + n3.x) / 4, (n0.y + n1.y + n2.y + n3.y) / 4,
                    (n0.z + n1.z + n2.z + n3.z) / 4⟩), m⟩,
         ⟨(v1, v2, ⟨(v0.x + v1.x + v2.x + v3.x) / 4, (v0.y + v1.y + v2.y + v3.y) / 4,
                    (v0.z + v1.z + v2.z + v3.z) / 4⟩),
          (n1, n2, ⟨(n0.x + n1.x + n2.x + n3.x) / 4, (n0.y + n1.y + n2.y + n3.y) / 4,
                    (n0.z + n1.z + n2.z + n3.z) / 4⟩), m⟩,
         ⟨(v2, v3, ⟨(v0.x + v1.x + v2.x + v3.x) / 4, (v0.y + v1.y + v2.y + v3.y) / 4,
                    (v0.z + v1.z + v2.z + v3.z) / 4⟩),
          (n2, n3, ⟨(n0.x + n1.x + n2.x + n3.x) / 4, (n0.y + n1.y + n2.y + n3.y) / 4,
                    (n0.z + n1.z + n2.z + n3.z) / 4⟩), m⟩,
         ⟨(v3, v0, ⟨(v0.x + v1.x + v2.x + v3.x) / 4, (v0.y + v1.y + v2.y + v3.y) / 4,
                    (v0.z + v1.z + v2.z + v3.z) / 4⟩),
          (n3, n0, ⟨(n0.x + n1.x + n2.x + n3.x) / 4, (n0.y + n1.y + n2.y + n3.y) / 4,
                    (n0.z + n1.z + n2.z + n3.z) / 4⟩), m⟩]), sF) := by
  have hext : extract voxels s e =
      extract_emit m (some [(v0, n0), (v1, n1), (v2, n2), (v3, n3)], sF) := by
    rcases hc with ⟨hcr, hres⟩ | ⟨hcr, hres⟩
    · unfold extract
      rw [hcr]
      dsimp only
      rw [hres]
    · unfold extract
      rw [hcr]
      dsimp only
      rw [hres]
  rw [hext]
  rfl

/-- Witness for C6 at `st4`/`e4`: the crossing is `LowInside Stone`
and the four reverse-order neighbor samples produce the four
mean-centered triangles. -/
theorem extract_four_samples_witness :
    extract st4 () e4 =
      ((Status.Ok,
        [⟨(⟨0, -1, 0⟩, ⟨0, -1, -1⟩,
           ⟨((0 : ℚ) + 0 + 0 + 0) / 4, ((-1 : ℚ) + -1 + 0 + 0) / 4, ((0 : ℚ) + -1 + -1 + 0) / 4⟩),
          (⟨0, 0, 1⟩, ⟨0, 0, 1⟩,
           ⟨((0 : ℚ) + 0 + 0 + 0) / 4, ((0 : ℚ) + 0 + 0 + 0) / 4, ((1 : ℚ) + 1 + 1 + 1) / 4⟩),
          Mat.Stone⟩,
         ⟨(⟨0, -1, -1⟩, ⟨0, 0, -1⟩,
           ⟨((0 : ℚ) + 0 + 0 + 0) / 4, ((-1 : ℚ) + -1 + 0 + 0) / 4, ((0 : ℚ) + -1 + -1 + 0) / 4⟩),
          (⟨0, 0, 1⟩, ⟨0, 0, 1⟩,
           ⟨((0 : ℚ) + 0 + 0 + 0) / 4, ((0 : ℚ) + 0 + 0 + 0) / 4, ((1 : ℚ) + 1 + 1 + 1) / 4⟩),
          Mat.Stone⟩,
         ⟨(⟨0, 0, -1⟩, ⟨0, 0, 0⟩,
           ⟨((0 : ℚ) + 0 + 0 + 0) / 4, ((-1 : ℚ) + -1 + 0 + 0) / 4, ((0 : ℚ) + -1 + -1 + 0) / 4⟩),
          (⟨0, 0, 1⟩, ⟨0, 0, 1⟩,
           ⟨((0 : ℚ) + 0 + 0 + 0) / 4, ((0 : ℚ) + 0 + 0 + 0) / 4, ((1 : ℚ) + 1 + 1 + 1) / 4⟩),
          Mat.Stone⟩,
         ⟨(⟨0, 0, 0⟩, ⟨0, -1, 0⟩,
           ⟨((0 : ℚ) + 0 + 0 + 0) / 4, ((-1 : ℚ) + -1 + 0 + 0) / 4, ((0 : ℚ) + -1 + -1 + 0) / 4⟩),
          (⟨0, 0, 1⟩, ⟨0, 0, 1⟩,
           ⟨((0 : ℚ) + 0 + 0 + 0) / 4, ((0 : ℚ) + 0 + 0 + 0) / 4, ((1 : ℚ) + 1 + 1 + 1) / 4⟩),
          Mat.Stone⟩]), ()) :=
  extract_four_samples st4 () e4 Mat.Stone () ()
    ⟨0, -1, 0⟩ ⟨0, 0, 1⟩ ⟨0, -1, -1⟩ ⟨0, 0, 1⟩ ⟨0, 0, -1⟩ ⟨0, 0, 1⟩ ⟨0, 0, 0⟩ ⟨0, 0, 1⟩
    (Or.inr ⟨by decide, by decide⟩)

/-- C7: the four neighbor cells walk the quad low corner, +v1, +v1+v2,
+v2 with the specified perpendicular offsets per axis, and `extract`
resolves them in that order for a `HighInside` crossing and in reverse
order for a `LowInside` crossing. -/
theorem neighbors_walk_and_orientation {σ M : Type} [DecidableEq M]
    [material.T M] (voxels : voxel_storage.T σ M) :
    (∀ (c : V3 ℤ) (l : ℤ),
      neighbors ⟨c, l, Direction.X⟩ =
        [bounds.new c.x c.y c.z l,
         bounds.new (c + (⟨0, 0, -1⟩ : V3 ℤ)).x (c + (⟨0, 0, -1⟩ : V3 ℤ)).y
           (c + (⟨0, 0, -1⟩ : V3 ℤ)).z l,
         bounds.new (c + (⟨0, 0, -1⟩ : V3 ℤ) + (⟨0, -1, 0⟩ : V3 ℤ)).x
           (c + (⟨0, 0, -1⟩ : V3 ℤ) + (⟨0, -1, 0⟩ : V3 ℤ)).y
           (c + (⟨0, 0, -1⟩ : V3 ℤ) + (⟨0, -1, 0⟩ : V3 ℤ)).z l,
         bounds.new (c + (⟨0, -1, 0⟩ : V3 ℤ)).x (c + (⟨0, -1, 0⟩ : V3 ℤ)).y
           (c + (⟨0, -1, 0⟩ : V3 ℤ)).z l]) ∧
    (∀ (c : V3 ℤ) (l : ℤ),
      neighbors ⟨c, l, Direction.Y⟩ =
        [bounds.new c.x c.y c.z l,
         bounds.new (c + (⟨-1, 0, 0⟩ : V3 ℤ)).x (c + (⟨-1, 0, 0⟩ : V3 ℤ)).y
           (c + (⟨-1, 0, 0⟩ : V3 ℤ)).z l,
         bounds.new (c + (⟨-1, 0, 0⟩ : V3 ℤ) + (⟨0, 0, -1⟩ : V3 ℤ)).x
           (c + (⟨-1, 0, 0⟩ : V3 ℤ) + (⟨0, 0, -1⟩ : V3 ℤ)).y
           (c + (⟨-1, 0, 0⟩ : V3 ℤ) + (⟨0, 0, -1⟩ : V3 ℤ)).z l,
         bounds.new (c + (⟨0, 0, -1⟩ : V3 ℤ)).x (c + (⟨0, 0, -1⟩ : V3 ℤ)).y
           (c + (⟨0, 0, -1⟩ : V3 ℤ)).z l]) ∧
    (∀ (c : V3 ℤ) (l : ℤ),
      neighbors ⟨c, l, Direction.Z⟩ =
        [bounds.new c.x c.y c.z l,
         bounds.new (c + (⟨0, -1, 0⟩ : V3 ℤ)).x (c + (⟨0, -1, 0⟩ : V3 ℤ)).y
           (c + (⟨0, -1, 0⟩ : V3 ℤ)).z l,
         bounds.new (c + (⟨0, -1, 0⟩ : V3 ℤ) + (⟨-1, 0, 0⟩ : V3 ℤ)).x
           (c + (⟨0, -1, 0⟩ : V3 ℤ) + (⟨-1, 0, 0⟩ : V3 ℤ)).y
           (c + (⟨0, -1, 0⟩ : V3 ℤ) + (⟨-1, 0, 0⟩ : V3 ℤ)).z l,
         bounds.new (c + (⟨-1, 0, 0⟩ : V3 ℤ)).x (c + (⟨-1, 0, 0⟩ : V3 ℤ)).y
           (c + (⟨-1, 0, 0⟩ : V3 ℤ)).z l]) ∧
    (∀ (s s1 : σ) (e : T) (m : M),
      crossing voxels s e = (Crossing.HighInside m, s1) →
      extract voxels s e =
        extract_emit m (resolve_voxels voxels s1 (neighbors e))) ∧
    (∀ (s s1 : σ) (e : T) (m : M),
      crossing voxels s e = (Crossing.LowInside m, s1) →
      extract voxels s e =
        extract_emit m (resolve_voxels voxels s1 (neighbors e).reverse)) := by
  refine ⟨fun c l => rfl, fun c l => rfl, fun c l => rfl, ?_, ?_⟩
  · intro s s1 e m hcr
    unfold extract
    rw [hcr]
  · intro s s1 e m hcr
    unfold extract
    rw [hcr]

/-- Witness for C7: the neighbor walk of `e8` and the orientation of
its `HighInside` crossing, at concrete inputs. -/
theorem neighbors_walk_and_orientation_witness :
    neighbors ⟨⟨0, 1, 1⟩, 0, Direction.X⟩ =
      [bounds.new 0 1 1 0,
       bounds.new ((⟨0, 1, 1⟩ : V3 ℤ) + (⟨0, 0, -1⟩ : V3 ℤ)).x
         ((⟨0, 1, 1⟩ : V3 ℤ) + (⟨0, 0, -1⟩ : V3 ℤ)).y
         ((⟨0, 1, 1⟩ : V3 ℤ) + (⟨0, 0, -1⟩ : V3 ℤ)).z 0,
       bounds.new ((⟨0, 1, 1⟩ : V3 ℤ) + (⟨0, 0, -1⟩ : V3 ℤ) + (⟨0, -1, 0⟩ : V3 ℤ)).x
         ((⟨0, 1, 1⟩ : V3 ℤ) + (⟨0, 0, -1⟩ : V3 ℤ) + (⟨0, -1, 0⟩ : V3 ℤ)).y
         ((⟨0, 1, 1⟩ : V3 ℤ) + (⟨0, 0, -1⟩ : V3 ℤ) + (⟨0, -1, 0⟩ : V3 ℤ)).z 0,
       bounds.new ((⟨0, 1, 1⟩ : V3 ℤ) + (⟨0, -1, 0⟩ : V3 ℤ)).x
         ((⟨0, 1, 1⟩ : V3 ℤ) + (⟨0, -1, 0⟩ : V3 ℤ)).y
         ((⟨0, 1, 1⟩ : V3 ℤ) + (⟨0, -1, 0⟩ : V3 ℤ)).z 0] ∧
    extract st8 () e8 =
      extract_emit Mat.Stone (resolve_voxels st8 () (neighbors e8)) := by
  have h := neighbors_walk_and_orientation (σ := Unit) (M := Mat) st8
  exact ⟨h.1 ⟨0, 1, 1⟩ 0, h.2.2.2.1 () () e8 Mat.Stone (by decide)⟩

end edge

namespace edge

/-- Helper: a successful resolution of a nonempty candidate list yields
at least one and at most as many samples as candidates. -/
theorem resolve_voxels_cons_length {σ M : Type} (voxels : voxel_storage.T σ M)
    (s : σ) (b : bounds.T) (rest : List bounds.T)
    (out : List (V3 ℚ × V3 ℚ)) (s' : σ)
    (h : resolve_voxels voxels s (b :: rest) = (some out, s')) :
    1 ≤ out.length ∧ out.length ≤ (b :: rest).length := by
  constructor
  · unfold resolve_voxels at h
    rw [resolve_loop_cons] at h
    rw [if_neg (by simp)] at h
    rcases hgvd : voxels.get_voxel_data s b with ⟨o, s1⟩
    rw [hgvd] at h
    cases o with
    | none => simp at h
    | some d =>
      dsimp only at h
      rcases resolve_loop_acc_prefix voxels rest s1 [d.bounds]
        [(d.vertex, d.normal)] out s' h with ⟨t, ht⟩
      rw [ht]
      simp
  · unfold resolve_voxels at h
    rw [resolve_loop_eq_traced voxels (b :: rest) s [] []] at h
    rcases htr : resolve_traced voxels s (b :: rest) [] with ⟨otr, s2⟩
    rw [htr] at h
    cases otr with
    | none => simp at h
    | some tr =>
      dsimp only at h
      have hlen := resolve_traced_length voxels (b :: rest) s [] tr s2 htr
      have hout : out = tr.map (fun p => p.2) := by
        simp only [Prod.mk.injEq, Option.some.injEq] at h
        simpa using h.1.symm
      rw [hout]
      simp only [List.length_map]
      omega

/-- C2 (amended): whenever resolution of the four neighbor bounds
succeeds, it yields between 1 and 4 samples; counts below 3 are
possible even under the containment contract, so the abort branch is
reachable. -/
theorem resolve_sample_count_bounds {σ M : Type} [DecidableEq M]
    [material.T M] (voxels : voxel_storage.T σ M) (s : σ) (e : T) (m : M)
    (s1 sF : σ) (vns : List (V3 ℚ × V3 ℚ))
    (hc : (crossing voxels s e = (Crossing.HighInside m, s1) ∧
           resolve_voxels voxels s1 (neighbors e) = (some vns, sF)) ∨
          (crossing voxels s e = (Crossing.LowInside m, s1) ∧
           resolve_voxels voxels s1 (neighbors e).reverse = (some vns, sF))) :
    1 ≤ vns.length ∧ vns.length ≤ 4 := by
  rcases hc with ⟨_, hres⟩ | ⟨_, hres⟩
  · have h := resolve_voxels_cons_length voxels s1 _ _ vns sF hres
    exact ⟨h.1, by simpa using h.2⟩
  · have h := resolve_voxels_cons_length voxels s1 _ _ vns sF hres
    exact ⟨h.1, by simpa using h.2⟩

/-- Witness for the amended C2 at `st8`/`e8`: three samples. -/
theorem resolve_sample_count_bounds_witness :
    1 ≤ ([(⟨0, 1, 1⟩, ⟨0, 0, 1⟩), (⟨0, 1, 0⟩, ⟨0, 0, 1⟩),
          (⟨0, 0, 0⟩, ⟨0, 0, 1⟩)] : List (V3 ℚ × V3 ℚ)).length ∧
    ([(⟨0, 1, 1⟩, ⟨0, 0, 1⟩), (⟨0, 1, 0⟩, ⟨0, 0, 1⟩),
      (⟨0, 0, 0⟩, ⟨0, 0, 1⟩)] : List (V3 ℚ × V3 ℚ)).length ≤ 4 :=
  resolve_sample_count_bounds st8 () e8 Mat.Stone () ()
    [(⟨0, 1, 1⟩, ⟨0, 0, 1⟩), (⟨0, 1, 0⟩, ⟨0, 0, 1⟩), (⟨0, 0, 0⟩, ⟨0, 0, 1⟩)]
    (Or.inl ⟨by decide, by decide⟩)

/-- Counterexample to C2 as stated: the storage `stC2` satisfies the
containment contract (every voxel-data answer's bounds contain the
queried bounds), yet resolving the four neighbors of `eC2` yields a
single sample — not 3 or 4 — and `extract` reaches the abort branch. -/
theorem resolve_panic_reachable :
    (∀ b : bounds.T, ∃ d, (stC2.get_voxel_data () b).1 = some d ∧
      d.bounds.contains b = true) ∧
    (resolve_voxels stC2 () (neighbors eC2).reverse).1 = some [(q0, q0)] ∧
    (extract stC2 () eC2).1 = (Status.Panicked, []) := by
  refine ⟨?_, by decide, by decide⟩
  intro b
  refine ⟨⟨if coarseC2.contains b then coarseC2 else b, q0, q0⟩, rfl, ?_⟩
  by_cases h : coarseC2.contains b = true
  · simp only [if_pos h]
    exact h
  · simp only [if_neg h]
    exact bounds_contains_refl b

end edge

namespace edge

/-- C4: `extract` returns the unresolved error exactly when a required
lookup answers absent — either corner material lookup, or the
voxel-data lookup of a non-skipped neighbor in the orientation-dependent
order — and in that case no polygon has been emitted. -/
theorem extract_err_iff {σ M : Type} [DecidableEq M] [material.T M]
    (voxels : voxel_storage.T σ M) (s : σ) (e : T) :
    (((extract voxels s e).1.1 = Status.Err) ↔
      (corner_lookup_absent voxels s e = true ∨
       ∃ m s1,
         (crossing voxels s e = (Crossing.HighInside m, s1) ∧
          resolve_lookup_absent voxels s1 (neighbors e) [] = true) ∨
         (crossing voxels s e = (Crossing.LowInside m, s1) ∧
          resolve_lookup_absent voxels s1 (neighbors e).reverse [] = true))) ∧
    ((extract voxels s e).1.1 = Status.Err → (extract voxels s e).1.2 = []) := by
  have hui := crossing_undefined_iff voxels s e
  unfold extract
  rcases hcr : crossing voxels s e with ⟨c, s1'⟩
  rw [hcr] at hui
  dsimp only at hui
  cases c with
  | Undefined =>
    dsimp only
    exact ⟨iff_of_true rfl (Or.inl (hui.mp rfl)), fun _ => rfl⟩
  | None =>
    dsimp only
    have hne : ¬(Status.Ok = Status.Err) := by simp
    refine ⟨⟨fun h => absurd h hne, ?_⟩, fun h => absurd h hne⟩
    rintro (habs | ⟨m, s1, (⟨hch, _⟩ | ⟨hcl, _⟩)⟩)
    · exact absurd (hui.mpr habs) (by simp)
    · simp at hch
    · simp at hcl
  | HighInside m =>
    dsimp only
    rcases hres : resolve_voxels voxels s1' (neighbors e) with ⟨o, sF⟩
    cases o with
    | none =>
      have habs : resolve_lookup_absent voxels s1' (neighbors e) [] = true := by
        have h0 : (resolve_loop voxels s1' (neighbors e) [] []).1 = none := by
          have : (resolve_voxels voxels s1' (neighbors e)).1 = none := by
            rw [hres]
          exact this
        exact (resolve_loop_none_iff voxels (neighbors e) s1' [] []).mp h0
      exact ⟨iff_of_true rfl (Or.inr ⟨m, s1', Or.inl ⟨rfl, habs⟩⟩), fun _ => rfl⟩
    | some vns =>
      refine ⟨⟨fun h => absurd h (extract_emit_some_ne_err m vns sF), ?_⟩,
        fun h => absurd h (extract_emit_some_ne_err m vns sF)⟩
      rintro (habs | ⟨m', s1'', (⟨hch, hra⟩ | ⟨hcl, _⟩)⟩)
      · exact absurd (hui.mpr habs) (by simp)
      · simp only [Prod.mk.injEq, Crossing.HighInside.injEq] at hch
        obtain ⟨hm', hs'⟩ := hch
        subst hm'
        subst hs'
        have hn := (resolve_loop_none_iff voxels (neighbors e) s1' [] []).mpr hra
        have : (resolve_voxels voxels s1' (neighbors e)).1 = none := hn
        rw [hres] at this
        simp at this
      · simp at hcl
  | LowInside m =>
    dsimp only
    rcases hres : resolve_voxels voxels s1' (neighbors e).reverse with ⟨o, sF⟩
    cases o with
    | none =>
      have habs : resolve_lookup_absent voxels s1' (neighbors e).reverse [] = true := by
        have h0 : (resolve_loop voxels s1' (neighbors e).reverse [] []).1 = none := by
          have : (resolve_voxels voxels s1' (neighbors e).reverse).1 = none := by
            rw [hres]
          exact this
        exact (resolve_loop_none_iff voxels (neighbors e).reverse s1' [] []).mp h0
      exact ⟨iff_of_true rfl (Or.inr ⟨m, s1', Or.inr ⟨rfl, habs⟩⟩), fun _ => rfl⟩
    | some vns =>
      refine ⟨⟨fun h => absurd h (extract_emit_some_ne_err m vns sF), ?_⟩,
        fun h => absurd h (extract_emit_some_ne_err m vns sF)⟩
      rintro (habs | ⟨m', s1'', (⟨hch, _⟩ | ⟨hcl, hra⟩)⟩)
      · exact absurd (hui.mpr habs) (by simp)
      · simp at hch
      · simp only [Prod.mk.injEq, Crossing.LowInside.injEq] at hcl
        obtain ⟨hm', hs'⟩ := hcl
        subst hm'
        subst hs'
        have hn := (resolve_loop_none_iff voxels (neighbors e).reverse s1' [] []).mpr hra
        have : (resolve_voxels voxels s1' (neighbors e).reverse).1 = none := hn
        rw [hres] at this
        simp at this

/-- Witness for C4: a storage with no data at all makes `extract` fail
with the unresolved error and emit nothing. -/
theorem extract_err_iff_witness :
    (extract stAbsent () e4).1.1 = Status.Err ∧
    (extract stAbsent () e4).1.2 = [] := by
  have h := extract_err_iff stAbsent () e4
  have herr : (extract stAbsent () e4).1.1 = Status.Err :=
    h.1.mpr (Or.inl (by decide))
  exact ⟨herr, h.2 herr⟩

end edge

namespace edge

/-- Helper: a traced resolution of four candidates with exactly one
skip has three entries, its candidates form an order-preserving
sublist, and the emitter turns it into a single triangle. -/
theorem resolve_one_skip_emit {σ M : Type} [DecidableEq M] [material.T M]
    (voxels : voxel_storage.T σ M) (s1 sF : σ) (m : M)
    (bs : List bounds.T) (tr : List (bounds.T × V3 ℚ × V3 ℚ))
    (hlen4 : bs.length = 4)
    (htr : resolve_traced voxels s1 bs [] = (some tr, sF))
    (hskip : resolve_skips voxels s1 bs [] = 1) :
    ∃ c0 c1 c2 v0 n0 v1 n1 v2 n2,
      tr = [(c0, v0, n0), (c1, v1, n1), (c2, v2, n2)] ∧
      [c0, c1, c2].Sublist bs ∧
      extract_emit m (resolve_voxels voxels s1 bs) =
        ((Status.Ok, [⟨(v0, v1, v2), (n0, n1, n2), m⟩]), sF) := by
  have hlen := resolve_traced_length voxels bs s1 [] tr sF htr
  rw [hskip, hlen4] at hlen
  have h3 : tr.length = 3 := by omega
  obtain ⟨a, b, c, htr3⟩ := List.length_eq_three.mp h3
  subst htr3
  obtain ⟨c0, v0, n0⟩ := a
  obtain ⟨c1, v1, n1⟩ := b
  obtain ⟨c2, v2, n2⟩ := c
  refine ⟨c0, c1, c2, v0, n0, v1, n1, v2, n2, rfl, ?_, ?_⟩
  · have hs := resolve_traced_sublist voxels bs s1 [] _ sF htr
    simpa using hs
  · unfold resolve_voxels
    rw [resolve_loop_eq_traced voxels bs s1 [] [], htr]
    rfl

/-- C8: when exactly one of the four candidate neighbors is skipped
because an already-accepted resolved bounds contains it, resolution
yields exactly three samples whose candidates keep their relative
order, and `extract` emits exactly one triangle made of those samples
in that order, tagged with the crossing's material. -/
theorem extract_one_skip {σ M : Type} [DecidableEq M] [material.T M]
    (voxels : voxel_storage.T σ M) (s : σ) (e : T) (m : M) (s1 sF : σ)
    (tr : List (bounds.T × V3 ℚ × V3 ℚ)) :
    ((crossing voxels s e = (Crossing.HighInside m, s1) ∧
      resolve_traced voxels s1 (neighbors e) [] = (some tr, sF) ∧
      resolve_skips voxels s1 (neighbors e) [] = 1) →
      ∃ c0 c1 c2 v0 n0 v1 n1 v2 n2,
        tr = [(c0, v0, n0), (c1, v1, n1), (c2, v2, n2)] ∧
        [c0, c1, c2].Sublist (neighbors e) ∧
        extract voxels s e =
          ((Status.Ok, [⟨(v0, v1, v2), (n0, n1, n2), m⟩]), sF)) ∧
    ((crossing voxels s e = (Crossing.LowInside m, s1) ∧
      resolve_traced voxels s1 (neighbors e).reverse [] = (some tr, sF) ∧
      resolve_skips voxels s1 (neighbors e).reverse [] = 1) →
      ∃ c0 c1 c2 v0 n0 v1 n1 v2 n2,
        tr = [(c0, v0, n0), (c1, v1, n1), (c2, v2, n2)] ∧
        [c0, c1, c2].Sublist (neighbors e).reverse ∧
        extract voxels s e =
          ((Status.Ok, [⟨(v0, v1, v2), (n0, n1, n2), m⟩]), sF)) := by
  constructor
  · rintro ⟨hcr, htr, hskip⟩
    obtain ⟨c0, c1, c2, v0, n0, v1, n1, v2, n2, h1, h2, h3⟩ :=
      resolve_one_skip_emit voxels s1 sF m (neighbors e) tr rfl htr hskip
    refine ⟨c0, c1, c2, v0, n0, v1, n1, v2, n2, h1, h2, ?_⟩
    unfold extract
    rw [hcr]
    dsimp only
    exact h3
  · rintro ⟨hcr, htr, hskip⟩
    obtain ⟨c0, c1, c2, v0, n0, v1, n1, v2, n2, h1, h2, h3⟩ :=
      resolve_one_skip_emit voxels s1 sF m (neighbors e).reverse tr
        rfl htr hskip
    refine ⟨c0, c1, c2, v0, n0, v1, n1, v2, n2, h1, h2, ?_⟩
    unfold extract
    rw [hcr]
    dsimp only
    exact h3

/-- Witness for C8 at `st8`/`e8`: the fourth neighbor is skipped
because the coarse cell accepted for the third contains it; the single
emitted triangle carries the three surviving samples in order. -/
theorem extract_one_skip_witness :
    extract st8 () e8 =
      ((Status.Ok,
        [⟨(⟨0, 1, 1⟩, ⟨0, 1, 0⟩, ⟨0, 0, 0⟩),
          (⟨0, 0, 1⟩, ⟨0, 0, 1⟩, ⟨0, 0, 1⟩), Mat.Stone⟩]), ()) ∧
    resolve_skips st8 () (neighbors e8) [] = 1 := by
  obtain ⟨c0, c1, c2, v0, n0, v1, n1, v2, n2, h1, h2, h3⟩ :=
    (extract_one_skip st8 () e8 Mat.Stone () ()
      [(bounds.new 0 1 1 0, ⟨0, 1, 1⟩, ⟨0, 0, 1⟩),
       (bounds.new 0 1 0 0, ⟨0, 1, 0⟩, ⟨0, 0, 1⟩),
       (bounds.new 0 0 0 0, ⟨0, 0, 0⟩, ⟨0, 0, 1⟩)]).1
      ⟨by decide, by decide, by decide⟩
  simp only [List.cons.injEq, Prod.mk.injEq, and_true] at h1
  obtain ⟨⟨hc0, hv0, hn0⟩, ⟨hc1, hv1, hn1⟩, hc2, hv2, hn2⟩ := h1
  subst hv0; subst hn0; subst hv1; subst hn1; subst hv2; subst hn2
  exact ⟨h3, by decide⟩

end edge
